import Mathlib

/-!
Shallow embedding of the SIF-Tools decoder core: `sif_tools/parser.py`,
`sif_tools/calibration.py`, `sif_tools/source.py` and `utils.py`.

Modelling conventions:
* a byte stream is a `List Char` together with an explicit cursor position
  (`fp.read` / `fp.readline` only move forward);
* Python floats are modelled as rationals (the decoder only ever parses
  decimal text and evaluates polynomials on it);
* a raised Python exception is an `Except.error` / `Option.none`;
* the header section that is consumed line-by-line (`fp.readline()`) is
  modelled as a `List String` of the remaining lines;
* the unbounded `while True` loop of `_read_until` is modelled with a fuel
  parameter: `none` means the loop did not finish within `fuel` iterations.
-/

deriving instance DecidableEq for Except

namespace SifTools

/-- Whitespace as stripped by Python's `int()` / `float()` / `str.split()`. -/
def isWS (c : Char) : Bool := c = ' ' ∨ c = '\n' ∨ c = '\t' ∨ c = '\r'

/-- Python `str.strip()` on a list of characters. -/
def trimWS (l : List Char) : List Char :=
  ((l.dropWhile isWS).reverse.dropWhile isWS).reverse

/-- Value of a list of decimal digits. -/
def digitsToNat (l : List Char) : Nat :=
  l.foldl (fun acc c => 10 * acc + (c.toNat - '0'.toNat)) 0

/-- Unsigned decimal number `digits [ '.' digits ]` as a rational. -/
def parseUnsigned (l : List Char) : Option ℚ :=
  let ip := l.takeWhile (fun c => c ≠ '.')
  let rest := l.dropWhile (fun c => c ≠ '.')
  match rest with
  | [] =>
    if ip ≠ [] ∧ ip.all Char.isDigit then some (digitsToNat ip : ℚ) else none
  | _ :: frac =>
    if (ip ≠ [] ∨ frac ≠ []) ∧ ip.all Char.isDigit ∧ frac.all Char.isDigit then
      some ((digitsToNat ip : ℚ) + (digitsToNat frac : ℚ) / (10 : ℚ) ^ frac.length)
    else none

/-- Python `float(word)` restricted to plain decimal notation (the only form
the decoder's calibration lines use). -/
def pyFloat (w : List Char) : Option ℚ :=
  match trimWS w with
  | [] => parseUnsigned []
  | c0 :: r =>
    if c0 = '-' then (parseUnsigned r).map Neg.neg
    else if c0 = '+' then parseUnsigned r
    else parseUnsigned (c0 :: r)

/-- Fuel-indexed model of the `while True` loop of `_read_until`
(`parser.py` lines 25-34).  One iteration reads one byte: at end of stream
Python's `fp.read(1)` returns `''`, which is neither the terminator nor a
newline, and `word += ''` leaves the state unchanged.  When the byte equals
the terminator or `'\n'` the loop breaks only if `word` is nonempty;
otherwise the byte is appended to `word`.  `none` means the loop did not
return within `fuel` iterations. -/
def read_untilAux (term : Char) (s : List Char) :
    Nat → Nat → List Char → Option (List Char × Nat)
  | 0, _, _ => none
  | fuel + 1, pos, word =>
    match s[pos]? with
    | some c =>
      if (c = term ∨ c = '\n') ∧ word ≠ [] then some (word, pos + 1)
      else read_untilAux term s fuel (pos + 1) (word ++ [c])
    | none => read_untilAux term s fuel pos word

/-- `_read_until(fp, terminator)` starting with the empty word. -/
def read_until (term : Char) (s : List Char) (pos fuel : Nat) :
    Option (List Char × Nat) :=
  read_untilAux term s fuel pos []

/-- `bytes.split(sep)` for a one-character separator, accumulator form:
Python keeps empty pieces (`b''.split(b',') == [b'']`). -/
def splitOnCharAux (sep : Char) : List Char → List Char → List (List Char)
  | [], acc => [acc.reverse]
  | c :: rest, acc =>
    if c = sep then acc.reverse :: splitOnCharAux sep rest []
    else splitOnCharAux sep rest (c :: acc)

/-- `bytes.split(sep)` for a one-character separator. -/
def splitOnChar (sep : Char) (l : List Char) : List (List Char) :=
  splitOnCharAux sep l []

/-- Python `str.split()` with no argument, accumulator form: split on
whitespace runs, dropping empty pieces. -/
def wordsAux : List Char → List Char → List (List Char)
  | [], acc => if acc = [] then [] else [acc.reverse]
  | c :: rest, acc =>
    if isWS c then
      if acc = [] then wordsAux rest [] else acc.reverse :: wordsAux rest []
    else wordsAux rest (c :: acc)

/-- Python `line.split()`: split on whitespace runs, dropping empty pieces. -/
def splitWS (s : String) : List String :=
  (wordsAux s.toList []).map String.mk

/-- `line.split()[1]`: the second whitespace-separated token;
`none` models the `IndexError` on a line with fewer than two tokens. -/
def secondToken (s : String) : Option String :=
  (splitWS s)[1]?

/-- The version-dispatch branch of `inspect` (`parser.py` lines 138-161),
acting on the list of remaining header lines (each `fp.readline()` consumes
one; at end of file `readline` returns `''`, modelled by `headD ""`).
The first guard transcribes the source's `65548 <= v & v <= 65557`: Python's
`&` binds tighter than `<=`, so it chains as `65548 ≤ (v land v) ≤ 65557`.
Returns the extracted spectrograph token (if any) together with the lines
left over; `Except.error` models the `IndexError` of `.split()[1]` on a
line with fewer than two tokens. -/
def versionSection (v : Int) (ls : List String) :
    Except String (Option String × List String) :=
  if 65548 ≤ Int.land v v ∧ Int.land v v ≤ 65557 then .ok (none, ls.drop 2)
  else if v = 65558 then .ok (none, ls.drop 5)
  else if v = 65559 ∨ v = 65564 then
    match secondToken ((ls.drop 8).headD "") with
    | some tok => .ok (some tok, ls.drop 9)
    | none => .error "IndexError"
  else if v = 65565 then .ok (none, ls.drop 15)
  else if 65565 < v then
    match secondToken ((ls.drop 8).headD "") with
    | some tok => .ok (some tok, ls.drop 18)
    | none => .error "IndexError"
  else .ok (none, ls)

/-- `inspect` after the version branch fills in the default spectrograph
(`parser.py` lines 160-161): the literal sentinel assigned when no branch
extracted one. -/
def spectrographAndRest (v : Int) (ls : List String) :
    Except String (String × List String) :=
  match versionSection v ls with
  | .error e => .error e
  | .ok (s?, rest) => .ok (s?.getD "sif version not checked yet", rest)

/-- The `SifCalbVersion` extra skip (`parser.py` lines 163-166): one more
`fp.readline()` exactly when the secondary version equals 65540. -/
def calbSkip (c : Int) (ls : List String) : List String :=
  if c = 65540 then ls.drop 1 else ls

/-- Horner evaluation of coefficients listed highest-degree-first — the
convention of `np.poly1d`. -/
def polyEval (coeffs : List ℚ) (x : ℚ) : ℚ :=
  coeffs.foldl (fun acc c => acc * x + c) 0

/-- One calibration row: `np.poly1d(np.flipud(coefs))` evaluated on
`np.arange(1, width + 1)` (`calibration.py` lines 35-36 and 40-41). -/
def calibRow (width : Nat) (coefs : List ℚ) : List ℚ :=
  (List.range width).map (fun (i : Nat) => polyEval coefs.reverse ((i : ℚ) + 1))

/-- The slice of the metadata record read by `extract_calibration`.
`calibFrames = some rows` models the presence of the keys
`Calibration_data_for_frame_1..rows.length`; `calibData` is the generic
`Calibration_data` after `extract_user_text` (`none` for an absent or
`None`-valued key); `pixelCalibration` is the Mechelle `PixelCalibration`
entry. -/
structure Info where
  detWidth : Nat
  numberOfFrames : Nat
  calibFrames : Option (List (List ℚ))
  calibData : Option (List ℚ)
  pixelCalibration : Option (List ℚ)
deriving DecidableEq

/-- Result of the Calibration Resolver: a shared 1-D array or a per-frame
2-D array. -/
inductive Calib where
  | one : List ℚ → Calib
  | two : List (List ℚ) → Calib
deriving DecidableEq

/-- `extract_calibration` (`calibration.py` lines 13-43).  It consults only
the per-frame keys and `Calibration_data`; `pixelCalibration` is never
read.  `Except.error` models the `KeyError` when a per-frame key up to
`NumberOfFrames` is missing. -/
def extract_calibration (info : Info) : Except String (Option Calib) :=
  match info.calibFrames with
  | some rows =>
    match (List.range info.numberOfFrames).mapM (fun f => rows[f]?) with
    | some cs => .ok (some (Calib.two (cs.map (calibRow info.detWidth))))
    | none => .error "KeyError"
  | none =>
    match info.calibData with
    | some coefs => .ok (some (Calib.one (calibRow info.detWidth coefs)))
    | none => .ok none

/-- The literal key format `'Calibration_data_for_frame_{i+1}'`
(`parser.py` line 269, brace spelled out). -/
def frameKey (i : Nat) : String :=
  "Calibration_data_for_frame_" ++ toString (i + 1)

/-- Per-frame coefficients from line `i` of the user-text block
(`parser.py` lines 267-271): slice off the key plus `': '`, strip, split on
commas, parse floats.  `Except.error` models the `IndexError` on a missing
line or the `ValueError` on a non-numeric token. -/
def frameCoefs (userText : String) (i : Nat) : Except String (List ℚ) :=
  match (splitOnChar '\n' userText.toList)[i]? with
  | none => .error "IndexError"
  | some line =>
    match (splitOnChar ',' (trimWS (line.drop ((frameKey i).length + 2)))).mapM pyFloat with
    | some fs => .ok fs
    | none => .error "ValueError"

/-- `extract_user_text` (`parser.py` lines 259-281) acting on the raw
`user_text` block and the raw `Calibration_data` line.  When the block's
first 20 bytes contain the literal marker, per-frame lists are split out
and `Calibration_data` is set to `None`; otherwise the generic line is
parsed as floats (`ValueError` caught: the key is deleted).  The access
`info['Calibration_data']` sits before the `try`, so an absent key —
the Mechelle case — raises an uncaught `KeyError`. -/
def extract_user_text (userText : String) (nFrames : Nat)
    (calibRaw : Option String) :
    Except String (Option (List (List ℚ)) × Option (List ℚ)) :=
  if decide ("Calibration data for".toList <:+: userText.toList.take 20) then
    match (List.range nFrames).mapM (fun i => frameCoefs userText i) with
    | .error e => .error e
    | .ok rows => .ok (some rows, none)
  else
    match calibRaw with
    | none => .error "KeyError"
    | some raw =>
      match (splitWS raw).mapM (fun (c : String) => pyFloat c.toList) with
      | some fs => .ok (none, some fs)
      | none => .ok (none, none)

/-- `'Mechelle' in info['spectrograph']` (`parser.py` line 171). -/
def mechelle (spectrograph : String) : Bool :=
  decide ("Mechelle".toList <:+: spectrograph.toList)

/-- `inspect`'s calibration-line branch (`parser.py` lines 171-175): on a
Mechelle spectrograph the line is float-parsed verbatim into
`PixelCalibration` and no `Calibration_data` key is created; otherwise the
raw line is stored as `Calibration_data`.  Returns
(`PixelCalibration` value, raw `Calibration_data`). -/
def calibrationLine (spectrograph line : String) :
    Except String (Option (List ℚ) × Option String) :=
  if mechelle spectrograph then
    match (splitWS line).mapM (fun (c : String) => pyFloat c.toList) with
    | some fs => .ok (some fs, none)
    | none => .error "ValueError"
  else .ok (none, some line)

/-- The calibration path of a whole decode: `inspect`'s Mechelle branch,
then `extract_user_text` (called at `parser.py` line 255), then
`extract_calibration` as the caller (`source.py` line 43) invokes it on the
returned metadata.  Yields the resolver's verdict together with the final
`PixelCalibration` metadata entry. -/
def calibPipeline (spectrograph calLine userText : String)
    (nFrames width : Nat) : Except String (Option Calib × Option (List ℚ)) :=
  match calibrationLine spectrograph calLine with
  | .error e => .error e
  | .ok (pixelCal, calibRaw) =>
    match extract_user_text userText nFrames calibRaw with
    | .error e => .error e
    | .ok (frames, cal) =>
      match extract_calibration ⟨width, nFrames, frames, cal, pixelCal⟩ with
      | .error e => .error e
      | .ok c => .ok (c, pixelCal)

/-- The frame-reading loop of `parser` (`parser.py` lines 311-332).
`samples` is the number of complete little-endian 4-byte floats available
from the base pixel offset; frame `i` (at float offset `i·frameSize`)
reshapes successfully iff `(i+1)·frameSize ≤ samples`.  On a failure the
cube is truncated to `data[:i]`; without `ignore_corrupt` a `ValueError`
carrying (declared, read) frame counts is raised, with it a warning is
issued and the loop continues (every later frame fails the same way,
leaving the truncated length unchanged).  Arguments of the recursion:
iterations left, current frame index `i`, current cube length, warned. -/
def framesLoop (samples frameSize nFrames : Nat) (ignore : Bool) :
    Nat → Nat → Nat → Bool → Except (Nat × Nat) (Nat × Bool)
  | 0, _, len, warned => .ok (len, warned)
  | k + 1, i, len, warned =>
    if (i + 1) * frameSize ≤ samples then
      framesLoop samples frameSize nFrames ignore k (i + 1) len warned
    else if ignore then
      framesLoop samples frameSize nFrames ignore k (i + 1) (min len i) true
    else .error (nFrames, min len i)

/-- The whole pixel-decoding pass: `no_images` frames attempted on a cube
pre-allocated with `no_images` frames (`parser.py` lines 309-332). -/
def decodeFrames (samples frameSize nFrames : Nat) (ignore : Bool) :
    Except (Nat × Nat) (Nat × Bool) :=
  framesLoop samples frameSize nFrames ignore nFrames 0 nFrames false

/-- One subimage line of the header (`parser.py` line 215): read in the
order `x0, y1, x1, y0, ybin, xbin`. -/
structure SubImage where
  x0 : Int
  y1 : Int
  x1 : Int
  y0 : Int
  ybin : Int
  xbin : Int
deriving DecidableEq

/-- The subimage loop of `inspect` (`parser.py` lines 210-219): every
iteration overwrites `width`/`height`, so only the last subimage's values
survive, and `size = (width, height * no_subimages)`.  Python 3's
`int((1 + x1 - x0) / xbin)` truncates the true quotient toward zero:
`Int.tdiv`.  `none` models the `NameError` when there is no subimage (the
loop body never ran and `width` is unbound). -/
def computeSize (subs : List SubImage) : Option (Int × Int) :=
  match subs.getLast? with
  | none => none
  | some s =>
    some (Int.tdiv (1 + s.x1 - s.x0) s.xbin,
      Int.tdiv (1 + s.y1 - s.y0) s.ybin * subs.length)

/-- The header fields feeding the geometry of a decode:
`DetectorDimensions` as read verbatim from the detector-geometry line
(`parser.py` line 123), the subimage lines, and `NumberOfFrames`. -/
structure GeomHeader where
  detDims : Int × Int
  subs : List SubImage
  noImages : Nat
deriving DecidableEq

/-- The geometry/pixel slice of a decode: `DetectorDimensions` is copied
from the header, the tile size is computed from the subimage lines, and the
Pixel Cube is read with the frame loop (`count = size[0]*size[1]` floats
per frame).  Returns (DetectorDimensions, size, frames read, warned). -/
def decodeGeom (g : GeomHeader) (samples : Nat) (ignore : Bool) :
    Except String ((Int × Int) × (Int × Int) × Nat × Bool) :=
  match computeSize g.subs with
  | none => .error "NameError"
  | some size =>
    match decodeFrames samples ((size.1 * size.2).toNat) g.noImages ignore with
    | .error _ => .error "ValueError"
    | .ok (len, warned) => .ok (g.detDims, size, len, warned)

/-- Exit status of `parser(path, ignore_corrupt)`. -/
inductive ParseResult where
  | done : Nat → Bool → ParseResult
  | headerError : ParseResult
  | truncationError : Nat → Nat → ParseResult
deriving DecidableEq

/-- `ParseResult.done` means the call returned normally. -/
def ParseResult.returned : ParseResult → Bool
  | .done _ _ => true
  | _ => false

/-- Resource model of `parser(path, ...)` when given a path (`parser.py`
lines 300-337): the handle is opened, `will_close = True`, and `f.close()`
is only reached after the frame loop finishes — there is no `try/finally`.
`inspectOk = false` stands for an exception raised inside `inspect` (bad
signature or non-numeric field).  The second component records whether the
handle was closed on that exit path. -/
def parserFromPath (inspectOk : Bool) (samples frameSize nFrames : Nat)
    (ignore : Bool) : ParseResult × Bool :=
  if inspectOk then
    match decodeFrames samples frameSize nFrames ignore with
    | .error e => (.truncationError e.1 e.2, false)
    | .ok r => (.done r.1 r.2, true)
  else (.headerError, false)

/-- `utils.parse` after the decode (`utils.py` lines 74-83): flatten the
cube; when the calibration length differs, silently re-slice to
`data[0].flatten()` (`IndexError` when the cube has no frame);
`np.column_stack` then pairs equal-length columns and raises on any other
shape.  `data` is the cube with each frame already flattened to its sample
list. -/
def utilsParse (data : List (List ℚ)) (wl : List ℚ) :
    Except String (List (ℚ × ℚ)) :=
  if wl.length ≠ data.flatten.length then
    match data.head? with
    | none => .error "IndexError"
    | some f0 =>
      if wl.length = f0.length then .ok (wl.zip f0)
      else .error "column_stack shape mismatch"
  else .ok (wl.zip data.flatten)

/-!
## Supporting lemmas
-/

theorem nat_land_self (n : Nat) : Nat.land n n = n := by
  have h : n &&& n = n := by
    apply Nat.eq_of_testBit_eq
    intro i
    simp [Nat.testBit_and]
  exact h

theorem nat_lor_self (n : Nat) : Nat.lor n n = n := by
  have h : n ||| n = n := by
    apply Nat.eq_of_testBit_eq
    intro i
    simp [Nat.testBit_or]
  exact h

/-- `v & v = v`: the reason the mis-parenthesized guard on `parser.py`
line 138 still implements the range test of the version table. -/
theorem int_land_self (v : Int) : Int.land v v = v := by
  cases v with
  | ofNat n => simp [Int.land, nat_land_self]
  | negSucc n => simp [Int.land, nat_lor_self]

/-!
## Claims
-/

/-- Claim C3: the number of header lines skipped after `ShutterTime`, and
whether (and where) a spectrograph identifier is extracted, follow the
version table exactly: 65548-65557 skip 2; 65558 skips 5; 65559/65564 skip
8 and take the 2nd token of the 9th line; 65565 skips 15; versions above
65565 skip 8, take the 2nd token of the 9th line, then skip 9 more; every
other version skips 0 lines; `SifCalbVersion = 65540` skips exactly one
extra line. -/
theorem sif_version_table (v c : Int) (ls : List String) (tok : String) :
    ((65548 ≤ v ∧ v ≤ 65557) → versionSection v ls = .ok (none, ls.drop 2)) ∧
    (v = 65558 → versionSection v ls = .ok (none, ls.drop 5)) ∧
    ((v = 65559 ∨ v = 65564) →
      secondToken ((ls.drop 8).headD "") = some tok →
      versionSection v ls = .ok (some tok, ls.drop 9)) ∧
    (v = 65565 → versionSection v ls = .ok (none, ls.drop 15)) ∧
    (65565 < v → secondToken ((ls.drop 8).headD "") = some tok →
      versionSection v ls = .ok (some tok, ls.drop 18)) ∧
    ((v < 65548 ∨ v ∈ ([65560, 65561, 65562, 65563] : List Int)) →
      versionSection v ls = .ok (none, ls)) ∧
    calbSkip 65540 ls = ls.drop 1 ∧
    (c ≠ 65540 → calbSkip c ls = ls) := by
  refine ⟨?_, ?_, ?_, ?_, ?_, ?_, ?_, ?_⟩
  · intro h
    rw [versionSection, int_land_self, if_pos h]
  · intro h
    subst h
    rw [versionSection, int_land_self]
    norm_num
  · intro h htok
    have h1 : ¬(65548 ≤ v ∧ v ≤ 65557) := by rcases h with h | h <;> omega
    have h2 : v ≠ 65558 := by rcases h with h | h <;> omega
    rw [versionSection, int_land_self, if_neg h1, if_neg h2, if_pos h, htok]
  · intro h
    subst h
    rw [versionSection, int_land_self]
    norm_num
  · intro h htok
    have h1 : ¬(65548 ≤ v ∧ v ≤ 65557) := by omega
    have h2 : v ≠ 65558 := by omega
    have h3 : ¬(v = 65559 ∨ v = 65564) := by omega
    have h4 : v ≠ 65565 := by omega
    rw [versionSection, int_land_self, if_neg h1, if_neg h2, if_neg h3,
      if_neg h4, if_pos h, htok]
  · intro h
    have h' : v < 65548 ∨ (65560 ≤ v ∧ v ≤ 65563) := by
      rcases h with h | h
      · exact Or.inl h
      · fin_cases h <;> omega
    have h1 : ¬(65548 ≤ v ∧ v ≤ 65557) := by omega
    have h2 : v ≠ 65558 := by omega
    have h3 : ¬(v = 65559 ∨ v = 65564) := by omega
    have h4 : v ≠ 65565 := by omega
    have h5 : ¬(65565 < v) := by omega
    rw [versionSection, int_land_self, if_neg h1, if_neg h2, if_neg h3,
      if_neg h4, if_neg h5]
  · rw [calbSkip, if_pos rfl]
  · intro h
    rw [calbSkip, if_neg h]

/-- Witness for C3: the table evaluated on concrete versions and header
lines, one instance per row. -/
theorem sif_version_table_witness :
    versionSection 65550 ["a", "b", "c"] = .ok (none, ["c"]) ∧
    versionSection 65558 ["1", "2", "3", "4", "5"] = .ok (none, []) ∧
    versionSection 65559 ["1", "2", "3", "4", "5", "6", "7", "8", "SR 303i"]
      = .ok (some "303i", []) ∧
    versionSection 65538 ["a"] = .ok (none, ["a"]) ∧
    calbSkip 65539 ["x"] = ["x"] :=
  ⟨(sif_version_table 65550 0 ["a", "b", "c"] "").1 (by decide),
   (sif_version_table 65558 0 ["1", "2", "3", "4", "5"] "").2.1 rfl,
   (sif_version_table 65559 0
      ["1", "2", "3", "4", "5", "6", "7", "8", "SR 303i"] "303i").2.2.1
      (Or.inl rfl) (by decide),
   (sif_version_table 65538 0 ["a"] "").2.2.2.2.2.1 (by decide),
   (sif_version_table 0 65539 ["x"] "").2.2.2.2.2.2.2 (by decide)⟩

/-- Claim C9 counterexample: for the unrecognized version 65538 the decoder
does skip zero lines, but the sentinel it stores under `spectrograph` is
the literal `'sif version not checked yet'`, not `"unchecked"`. -/
theorem spectrograph_sentinel_counterexample :
    spectrographAndRest 65538 ["a", "b"] =
      .ok ("sif version not checked yet", ["a", "b"]) ∧
    "sif version not checked yet" ≠ "unchecked" := by
  constructor <;> decide

/-- Claim C9 (amended): for every `SifVersion` outside all recognized
ranges the decoder skips zero extra header lines and sets `spectrograph`
to the sentinel string `'sif version not checked yet'`. -/
theorem spectrograph_sentinel (v : Int) (ls : List String)
    (h : v < 65548 ∨ v ∈ ([65560, 65561, 65562, 65563] : List Int)) :
    spectrographAndRest v ls = .ok ("sif version not checked yet", ls) := by
  have h' : v < 65548 ∨ (65560 ≤ v ∧ v ≤ 65563) := by
    rcases h with h | h
    · exact Or.inl h
    · fin_cases h <;> omega
  have h1 : ¬(65548 ≤ v ∧ v ≤ 65557) := by omega
  have h2 : v ≠ 65558 := by omega
  have h3 : ¬(v = 65559 ∨ v = 65564) := by omega
  have h4 : v ≠ 65565 := by omega
  have h5 : ¬(65565 < v) := by omega
  rw [spectrographAndRest, versionSection, int_land_self, if_neg h1,
    if_neg h2, if_neg h3, if_neg h4, if_neg h5]
  rfl

/-- Witness for C9's amended theorem at version 65560. -/
theorem spectrograph_sentinel_witness :
    spectrographAndRest 65560 ["x"] =
      .ok ("sif version not checked yet", ["x"]) :=
  spectrograph_sentinel 65560 ["x"] (by decide)

/-- Once the cursor sits at or past end of stream, `_read_until` makes no
progress: `fp.read(1)` returns `''`, which never matches the terminator,
and the state repeats forever. -/
theorem read_untilAux_eof (term : Char) (s : List Char) (pos : Nat)
    (h : s.length ≤ pos) :
    ∀ fuel word, read_untilAux term s fuel pos word = none := by
  intro fuel
  induction fuel with
  | zero => intro word; rfl
  | succ f ih =>
    intro word
    rw [read_untilAux]
    have hnone : s[pos]? = none := by
      simp [List.getElem?_eq_none, h]
    rw [hnone]
    exact ih word

/-- Claim C10: on the stream `"ab"`, which ends in the middle of a word,
`_read_until` never terminates: no amount of fuel makes the loop return. -/
theorem read_until_divergence :
    ∀ fuel, read_until ' ' ("ab".toList) 0 fuel = none := by
  intro fuel
  rcases fuel with _ | _ | _ | f
  · rfl
  · rfl
  · rfl
  · show read_untilAux ' ' ("ab".toList) (f + 3) 0 [] = none
    have step : read_untilAux ' ' ("ab".toList) (f + 3) 0 [] =
        read_untilAux ' ' ("ab".toList) (f + 1) 2 ("ab".toList) := rfl
    rw [step]
    exact read_untilAux_eof ' ' ("ab".toList) 2 (by decide) (f + 1) _

/-- While every attempted frame still fits in the available samples, the
frame loop just advances the index, leaving cube length and warning flag
untouched. -/
theorem framesLoop_skip (S F N : Nat) (ign : Bool) (m : Nat) :
    ∀ r i len w, (∀ j, j < m → (i + j + 1) * F ≤ S) →
      framesLoop S F N ign (m + r) i len w =
        framesLoop S F N ign r (i + m) len w := by
  induction m with
  | zero =>
    intro r i len w _
    simp
  | succ m ih =>
    intro r i len w hall
    have h0 : (i + 1) * F ≤ S := by
      have := hall 0 (by omega)
      simpa using this
    have e : m + 1 + r = (m + r) + 1 := by omega
    rw [e]
    simp only [framesLoop]
    rw [if_pos h0]
    have h2 := ih r (i + 1) len w (by
      intro j hj
      have := hall (j + 1) (by omega)
      have e2 : i + (j + 1) + 1 = i + 1 + j + 1 := by omega
      rw [e2] at this
      exact this)
    rw [h2]
    have e3 : i + 1 + m = i + (m + 1) := by omega
    rw [e3]

/-- One unfolding step of the frame loop. -/
theorem framesLoop_succ_eq (S F N : Nat) (ign : Bool) (k i len : Nat)
    (w : Bool) :
    framesLoop S F N ign (k + 1) i len w =
      if (i + 1) * F ≤ S then framesLoop S F N ign k (i + 1) len w
      else if ign then framesLoop S F N ign k (i + 1) (min len i) true
      else .error (N, min len i) := rfl

/-- Once the next frame no longer fits, in tolerant mode every remaining
frame fails the same way: the loop ends with the cube truncated at the
first failure and the warning flag set. -/
theorem framesLoop_all_fail (S F N : Nat) :
    ∀ k i len w, S < (i + 1) * F →
      framesLoop S F N true (k + 1) i len w = .ok (min len i, true) := by
  intro k
  induction k with
  | zero =>
    intro i len w h
    rw [framesLoop_succ_eq, if_neg (Nat.not_le.mpr h), if_pos rfl]
    rfl
  | succ k ih =>
    intro i len w h
    rw [framesLoop_succ_eq, if_neg (Nat.not_le.mpr h), if_pos rfl]
    have h2 : S < (i + 1 + 1) * F :=
      lt_of_lt_of_le h (Nat.mul_le_mul (by omega) (le_refl F))
    rw [ih (i + 1) (min len i) true h2]
    have hmin : min len i ≤ i + 1 := le_trans (Nat.min_le_right _ _) (by omega)
    rw [Nat.min_eq_left hmin]

/-- Claim C2: when the pixel region holds fewer than
`NumberOfFrames · width·height·subimage_count` float samples, the decode
raises a truncation error whose payload pairs the declared frame count with
the number of frames actually read (`ignore_corrupt = False`), and with
tolerance enabled it returns a cube of `samples / frameSize` frames —
strictly fewer than declared — with the corruption warning signalled. -/
theorem truncation_behavior (S w h nsub N : Nat) (hF : 0 < w * h * nsub)
    (hS : S < N * (w * h * nsub)) :
    decodeFrames S (w * h * nsub) N false =
      .error (N, S / (w * h * nsub)) ∧
    decodeFrames S (w * h * nsub) N true =
      .ok (S / (w * h * nsub), true) ∧
    S / (w * h * nsub) < N := by
  set F := w * h * nsub with hFdef
  set q := S / F with hqdef
  have hqN : q < N := by
    rw [hqdef, Nat.div_lt_iff_lt_mul hF]
    exact hS
  have hmul : F * q + S % F = S := Nat.div_add_mod S F
  have hmod : S % F < F := Nat.mod_lt S hF
  have hsucc : S < (q + 1) * F := by
    have e : (q + 1) * F = F * q + F := by ring
    rw [e]
    linarith
  have hfit : ∀ j, j < q → (0 + j + 1) * F ≤ S := by
    intro j hj
    have h1 : (0 + j + 1) * F ≤ q * F := Nat.mul_le_mul (by omega) (le_refl F)
    have h2 : q * F ≤ S := by
      rw [hqdef]
      exact Nat.div_mul_le_self S F
    exact le_trans h1 h2
  have e2 : q + (N - q) = N := by omega
  obtain ⟨k, hk⟩ : ∃ k, N - q = k + 1 := ⟨N - q - 1, by omega⟩
  have hmin : min N q = q := Nat.min_eq_right (Nat.le_of_lt hqN)
  have hfail : S < (0 + q + 1) * F := by
    have e : 0 + q + 1 = q + 1 := by omega
    rw [e]
    exact hsucc
  refine ⟨?_, ?_, hqN⟩
  · have hskip := framesLoop_skip S F N false q (N - q) 0 N false hfit
    rw [e2] at hskip
    rw [decodeFrames, hskip, hk]
    simp only [framesLoop]
    rw [if_neg (Nat.not_le.mpr hfail)]
    simp [hmin]
  · have hskip := framesLoop_skip S F N true q (N - q) 0 N false hfit
    rw [e2] at hskip
    rw [decodeFrames, hskip, hk]
    rw [framesLoop_all_fail S F N k (0 + q) N false hfail]
    simp [hmin]

/-- Witness for C2: 5 samples, frame size 2·1·1, 3 declared frames. -/
theorem truncation_behavior_witness :
    decodeFrames 5 (2 * 1 * 1) 3 false = .error (3, 5 / (2 * 1 * 1)) ∧
    decodeFrames 5 (2 * 1 * 1) 3 true = .ok (5 / (2 * 1 * 1), true) ∧
    5 / (2 * 1 * 1) < 3 :=
  truncation_behavior 5 2 1 1 3 (by decide) (by decide)

/-- Claim C4 counterexample: with a path argument the handle is closed on
the success path, but not on a header parse failure and not on a raised
truncation error — `parser` has no `try/finally` around `f.close()`. -/
theorem handle_release_counterexample :
    (parserFromPath false 0 1 1 false).2 = false ∧
    (parserFromPath true 0 1 1 false).1 = ParseResult.truncationError 1 0 ∧
    (parserFromPath true 0 1 1 false).2 = false ∧
    (parserFromPath true 2 1 1 false).2 = true := by
  refine ⟨?_, ?_, ?_, ?_⟩ <;> decide

/-- Claim C4 (amended): when `parser` opens the file itself, the handle is
released exactly on the exit paths that return normally (success, or
tolerated truncation); a header parse failure or a raised truncation error
leaks the handle. -/
theorem handle_release_iff_returned (io : Bool) (S F N : Nat) (ign : Bool) :
    (parserFromPath io S F N ign).2 =
      (parserFromPath io S F N ign).1.returned := by
  cases io with
  | false => rfl
  | true =>
    cases hd : decodeFrames S F N ign with
    | error e => simp [parserFromPath, hd, ParseResult.returned]
    | ok r => simp [parserFromPath, hd, ParseResult.returned]

/-- Claim C5 counterexample: a successfully decoded, non-truncated file
whose single subimage is horizontally binned by 2: the header's
`DetectorDimensions` is (100, 50) while the tile size is (50, 50). -/
theorem detector_dims_counterexample :
    decodeGeom ⟨(100, 50), [⟨1, 50, 100, 1, 1, 2⟩], 1⟩ 2500 false =
      .ok ((100, 50), (50, 50), 1, false) ∧
    ((100 : Int), (50 : Int)) ≠ ((50 : Int), (50 : Int)) := by
  constructor <;> decide

/-- Claim C5 (amended): the decoder never checks `DetectorDimensions`
against the tile size; the two coincide in the unbinned full-frame case —
a single subimage whose bounding box starts at (1, 1), ends at the
detector dimensions, with `xbin = ybin = 1`. -/
theorem detector_dims_full_frame (d1 d2 : Int) (s : SubImage)
    (hx0 : s.x0 = 1) (hy0 : s.y0 = 1) (hxb : s.xbin = 1) (hyb : s.ybin = 1)
    (hx1 : s.x1 = d1) (hy1 : s.y1 = d2) :
    computeSize [s] = some (d1, d2) := by
  have e1 : (1 : Int) + d1 - 1 = d1 := by ring
  have e2 : (1 : Int) + d2 - 1 = d2 := by ring
  simp [computeSize, hx0, hy0, hxb, hyb, hx1, hy1, e1, e2, Int.tdiv_one]

/-- Witness for C5's amended theorem: full-frame 4×3 detector. -/
theorem detector_dims_full_frame_witness :
    computeSize [⟨1, 3, 4, 1, 1, 1⟩] = some (4, 3) :=
  detector_dims_full_frame 4 3 ⟨1, 3, 4, 1, 1, 1⟩ rfl rfl rfl rfl rfl rfl

/-- Claim C8 counterexample: a mismatch where even the first frame's length
differs from the calibration length — `np.column_stack` then raises, so
the re-slicing parse is not failure-free on every mismatch. -/
theorem shape_mismatch_counterexample :
    utilsParse [[1, 2], [3, 4]] [5] = .error "column_stack shape mismatch" ∧
    ([5] : List ℚ).length ≠ ([[1, 2], [3, 4]] : List (List ℚ)).flatten.length := by
  constructor <;> decide

/-- Claim C8 (amended): on a calibration/cube element-count mismatch the
parse silently re-slices to the first frame's flattened samples — when the
calibration length matches that frame — and returns normally, producing a
result indistinguishable from parsing a file holding only that frame. -/
theorem shape_mismatch_reslice (data : List (List ℚ)) (wl : List ℚ)
    (f0 : List ℚ) (hmis : wl.length ≠ data.flatten.length)
    (h0 : data.head? = some f0) (hlen : wl.length = f0.length) :
    utilsParse data wl = .ok (wl.zip f0) ∧
    utilsParse data wl = utilsParse [f0] wl := by
  have hL : utilsParse data wl = .ok (wl.zip f0) := by
    unfold utilsParse
    rw [if_pos hmis, h0]
    simp [hlen]
  have hR : utilsParse [f0] wl = .ok (wl.zip f0) := by
    unfold utilsParse
    simp [hlen]
  exact ⟨hL, hL.trans hR.symm⟩

/-- Witness for C8's amended theorem: two 2-sample frames, calibration of
length 2. -/
theorem shape_mismatch_reslice_witness :
    utilsParse [[1, 2], [3, 4]] [9, 9] = .ok (([9, 9] : List ℚ).zip [1, 2]) ∧
    utilsParse [[1, 2], [3, 4]] [9, 9] = utilsParse [[1, 2]] [9, 9] :=
  shape_mismatch_reslice [[1, 2], [3, 4]] [9, 9] [1, 2]
    (by decide) (by decide) (by decide)

/-- Looking up indices `0..n-1` of a list by `getElem?` all succeed and
return the prefix of length `n`. -/
theorem mapM_getElem_take {α : Type} (l : List α) (n : Nat)
    (hn : n ≤ l.length) :
    (List.range n).mapM (fun f => l[f]?) = some (l.take n) := by
  induction n with
  | zero => rfl
  | succ k ih =>
    rw [List.range_succ, List.mapM_append, ih (by omega)]
    have hk : k < l.length := by omega
    rw [List.take_succ]
    simp only [List.mapM_cons, List.mapM_nil, List.getElem?_eq_getElem hk]
    simp [Option.toList]

/-- Claim C1 counterexample: at width 4 the stored pair `[1, 0]` resolves
to the constant row `[1, 1, 1, 1]` (reversal gives `np.poly1d([0, 1]) = 1`),
not to `[1, 2, 3, 4]` as the spec's concrete case states. -/
theorem calib_stored_pair_counterexample :
    extract_calibration ⟨4, 1, none, some [1, 0], none⟩ =
      .ok (some (Calib.one [1, 1, 1, 1])) ∧
    extract_calibration ⟨4, 1, none, some [1, 0], none⟩ ≠
      .ok (some (Calib.one [1, 2, 3, 4])) := by
  have h : extract_calibration ⟨4, 1, none, some [1, 0], none⟩ =
      .ok (some (Calib.one [1, 1, 1, 1])) := by
    show Except.ok (some (Calib.one (calibRow 4 [1, 0]))) = _
    have h4 : List.range 4 = [0, 1, 2, 3] := rfl
    simp [calibRow, polyEval, h4]
  refine ⟨h, ?_⟩
  rw [h]
  decide

/-- Claim C1 (amended): the resolver reverses the stored
(lowest-degree-first) coefficient list and evaluates the polynomial at
pixel positions 1..W, so a stored pair `[a, b]` evaluates to `b·x + a`
(stored `[1, 0]` gives `[1, 1, 1, 1]` at W = 4, and `[0, 1]` gives
`[1, 2, 3, 4]`); with per-frame keys present the result is the 2-D table
applying the same rule row by row, of shape (N, W). -/
theorem calib_reverse_eval (W N : Nat) (a b : ℚ) (rows : List (List ℚ))
    (pix cal : Option (List ℚ)) (hrows : rows.length = N) :
    extract_calibration ⟨W, N, none, some [a, b], pix⟩ =
      .ok (some (Calib.one
        ((List.range W).map (fun (i : Nat) => b * ((i : ℚ) + 1) + a)))) ∧
    extract_calibration ⟨W, N, some rows, cal, pix⟩ =
      .ok (some (Calib.two (rows.map (calibRow W)))) ∧
    (rows.map (calibRow W)).length = N ∧
    (∀ r ∈ rows.map (calibRow W), r.length = W) := by
  refine ⟨?_, ?_, ?_, ?_⟩
  · show Except.ok (some (Calib.one (calibRow W [a, b]))) = _
    have hrow : calibRow W [a, b] =
        (List.range W).map (fun (i : Nat) => b * ((i : ℚ) + 1) + a) := by
      unfold calibRow
      apply List.map_congr_left
      intro i _
      show polyEval ([a, b].reverse) ((i : ℚ) + 1) = b * ((i : ℚ) + 1) + a
      simp [polyEval]
    rw [hrow]
  · subst hrows
    have hm : (List.range rows.length).mapM (fun f => rows[f]?) = some rows := by
      have h2 := mapM_getElem_take rows rows.length le_rfl
      rwa [List.take_length] at h2
    unfold extract_calibration
    dsimp only
    rw [hm]
  · simp [hrows]
  · intro r hr
    rw [List.mem_map] at hr
    obtain ⟨c, _, rfl⟩ := hr
    unfold calibRow
    rw [List.length_map, List.length_range]

/-- Witness for C1's amended theorem: W = 3, stored pair `[5, 2]`, two
per-frame rows. -/
theorem calib_reverse_eval_witness :
    extract_calibration ⟨3, 2, none, some [5, 2], none⟩ =
      .ok (some (Calib.one
        ((List.range 3).map (fun (i : Nat) => 2 * ((i : ℚ) + 1) + 5)))) ∧
    extract_calibration ⟨3, 2, some [[5, 2], [1, 1]], none, none⟩ =
      .ok (some (Calib.two (([[5, 2], [1, 1]] : List (List ℚ)).map (calibRow 3)))) ∧
    (([[5, 2], [1, 1]] : List (List ℚ)).map (calibRow 3)).length = 2 ∧
    (∀ r ∈ ([[5, 2], [1, 1]] : List (List ℚ)).map (calibRow 3), r.length = 3) :=
  calib_reverse_eval 3 2 5 2 [[5, 2], [1, 1]] none none (by decide)

/-- Claim C6 counterexample: a Mechelle file whose user-text block is plain
text makes the decode raise a `KeyError` inside `extract_user_text` (so
decoding does not always succeed), and on a Mechelle file with a per-frame
calibration block the resolver returns the polynomial-evaluated per-frame
table, not the raw `PixelCalibration` list `[1, 2]`. -/
theorem mechelle_counterexample :
    calibPipeline "Mechelle" "1 2" "hello" 1 4 = .error "KeyError" ∧
    calibPipeline "Mechelle" "1 2" "Calibration data for frame 1 : 5,7" 1 2 =
      .ok (some (Calib.two [[12, 19]]), some [1, 2]) ∧
    Calib.two [[12, 19]] ≠ Calib.one [1, 2] := by
  refine ⟨by decide, ?_, by decide⟩
  show Except.ok (some (Calib.two (([[5, 7]] : List (List ℚ)).map (calibRow 2))),
    some ([1, 2] : List ℚ)) = _
  have h2 : List.range 2 = [0, 1] := rfl
  simp [calibRow, polyEval, h2]
  norm_num

/-- Claim C6 (amended): on a Mechelle spectrograph the coefficients are
stored verbatim under the separate `PixelCalibration` metadata key and no
`Calibration_data` key is created; the decode consequently fails with a
`KeyError` in `extract_user_text` whenever the user-text block lacks the
per-frame calibration marker; and the Calibration Resolver never reads
`PixelCalibration` — its output is independent of that key. -/
theorem mechelle_amended (spectro line userText : String) (N W : Nat)
    (cs : List ℚ) (hm : mechelle spectro = true)
    (hline : (splitWS line).mapM (fun (c : String) => pyFloat c.toList) =
      some cs)
    (hmarker : decide
      (("Calibration data for".toList) <:+: userText.toList.take 20) = false) :
    calibrationLine spectro line = .ok (some cs, none) ∧
    calibPipeline spectro line userText N W = .error "KeyError" ∧
    (∀ (dW nF : Nat) (cf : Option (List (List ℚ))) (cd p q : Option (List ℚ)),
      extract_calibration ⟨dW, nF, cf, cd, p⟩ =
        extract_calibration ⟨dW, nF, cf, cd, q⟩) := by
  have h1 : calibrationLine spectro line = .ok (some cs, none) := by
    unfold calibrationLine
    rw [if_pos hm, hline]
  refine ⟨h1, ?_, ?_⟩
  · unfold calibPipeline
    rw [h1]
    dsimp only
    unfold extract_user_text
    rw [hmarker, if_neg Bool.false_ne_true]
  · intro dW nF cf cd p q
    rfl

/-- Witness for C6's amended theorem on the stream pieces of a concrete
Mechelle file. -/
theorem mechelle_amended_witness :
    calibrationLine "Mechelle" "1 2" = .ok (some [1, 2], none) ∧
    calibPipeline "Mechelle" "1 2" "hi" 1 4 = .error "KeyError" ∧
    extract_calibration ⟨4, 1, none, some [1, 0], some [9]⟩ =
      extract_calibration ⟨4, 1, none, some [1, 0], none⟩ := by
  have h := mechelle_amended "Mechelle" "1 2" "hi" 1 4 [1, 2]
    (by decide) (by decide) (by decide)
  exact ⟨h.1, h.2.1, h.2.2 4 1 none (some [1, 0]) (some [9]) none⟩

end SifTools
